import Mathlib

/-! Verification development for the COL724 measurement harness.

This file embeds, from the Python sources, the parts of the system the
checked properties are about: the dumbbell topology builder and its
monitored-interface list (dumbbell.py), the paced sender's rate arithmetic
and per-second metric records (quic_client.py), the run orchestrator's
step order, throughput computation and metrics aggregation
(jitter/helper_quic.py), the caller that guarantees network shutdown
(experiment_runner_quic.py), and the bandwidth sweep driver
(exp_parkinglot.py). Machine reals are modelled as rationals; file and
process effects are modelled as explicit event traces and pure data. -/

namespace COL724

/-- Link of an in-memory topology: the two endpoint node names, the port
index the link occupies on each endpoint, and the parameters passed to
addLink in the source. Ports on a node are numbered 1, 2, ... in the order
links touching that node are added; the emulation platform then names the
corresponding interface nodename-ethPORT. -/
structure Link where
  node1 : String
  port1 : Nat
  node2 : String
  port2 : Nat
  bw : ℚ
  delay : String
  loss : ℚ
  max_queue_size : Option Nat
  deriving DecidableEq, Repr

/-- Host entry of a topology: name and the optional fractional cpu cap
passed to addHost. -/
structure TopoHost where
  name : String
  cpu : Option ℚ
  deriving DecidableEq, Repr

/-- In-memory topology graph populated by build: hosts, switches and links
in insertion order. -/
structure TopoState where
  hosts : List TopoHost
  switches : List String
  links : List Link
  deriving DecidableEq, Repr

def TopoState.empty : TopoState := ⟨[], [], []⟩

/-- Number of ports already in use on a node: one per link that touches it. -/
def usedPorts (ts : TopoState) (node : String) : Nat :=
  (ts.links.filter (fun l => l.node1 == node || l.node2 == node)).length

def addSwitch (ts : TopoState) (name : String) : TopoState :=
  { ts with switches := ts.switches ++ [name] }

def addHost (ts : TopoState) (name : String) (cpu : Option ℚ) : TopoState :=
  { ts with hosts := ts.hosts ++ [⟨name, cpu⟩] }

/-- Model of Topo.addLink: the new link occupies the next free port on each
of its two endpoints. -/
def addLink (ts : TopoState) (node1 node2 : String) (bw : ℚ) (delay : String)
    (loss : ℚ) (max_queue_size : Option Nat) : TopoState :=
  { ts with links := ts.links ++
      [⟨node1, usedPorts ts node1 + 1, node2, usedPorts ts node2 + 1,
        bw, delay, loss, max_queue_size⟩] }

def hostName (i : Nat) : String := "h" ++ toString i

namespace DumbbellTopo

/-- One iteration of the first loop of DumbbellTopo.build (dumbbell.py
lines 11-13): add host i with a 10 percent cpu cap and link it to s1 at 1
Mbps with 1ms delay. -/
def addSrcHost (ts : TopoState) (i : Nat) : TopoState :=
  addLink (addHost ts (hostName i) (some (1 / 10))) (hostName i) "s1" 1 "1ms" 0 none

/-- One iteration of the second loop of DumbbellTopo.build (dumbbell.py
lines 15-17): add host i without a cpu cap and link it to s2 at 1 Mbps
with 1ms delay. -/
def addDstHost (ts : TopoState) (i : Nat) : TopoState :=
  addLink (addHost ts (hostName i) none) (hostName i) "s2" 1 "1ms" 0 none

/-- Embedding of DumbbellTopo.build (dumbbell.py lines 4-19): two switches
s1 and s2; hosts 0 to mid-1 attach to s1, hosts mid to
number_of_hosts - 1 attach to s2; finally the inter-switch bottleneck link
s1-s2 is added with the requested bandwidth, delay and loss and a
100-packet queue bound. -/
def build (bw : ℚ) (delay : String) (loss : ℚ) (number_of_hosts : Nat) : TopoState :=
  let mid := number_of_hosts / 2
  let ts := addSwitch (addSwitch TopoState.empty "s1") "s2"
  let ts := (List.range mid).foldl addSrcHost ts
  let ts := (List.range' mid (number_of_hosts - mid)).foldl addDstHost ts
  addLink ts "s1" "s2" bw delay loss (some 100)

/-- Embedding of DumbbellTopo.switch_interface (dumbbell.py lines 21-24):
the monitored-interface list is the hardcoded constant, independent of the
built network. -/
def switch_interface : List String := ["s1-eth21"]

end DumbbellTopo

/-- Interface name the emulation platform assigns to a given port of a
node. -/
def ifaceName (node : String) (port : Nat) : String :=
  node ++ "-eth" ++ toString port

/-- The two interface names of a link, one per endpoint. -/
def linkIfaces (l : Link) : List String :=
  [ifaceName l.node1 l.port1, ifaceName l.node2 l.port2]

/-- All interface names that exist in a built topology. -/
def allIfaces (ts : TopoState) : List String := (ts.links.map linkIfaces).flatten

/-- Links whose two endpoints are both switches. -/
def interSwitchLinks (ts : TopoState) : List Link :=
  ts.links.filter (fun l => ts.switches.contains l.node1 && ts.switches.contains l.node2)

/-- Interface names of the inter-switch links of a topology. -/
def interSwitchIfaces (ts : TopoState) : List String :=
  ((interSwitchLinks ts).map linkIfaces).flatten

/-- Throughput computed by the run orchestrator for one monitored interface
(helper_quic.py line 211): bytes delta times 8, divided by 1e6, divided by
the run duration. -/
def interfaceThroughput (before after : Nat) (duration : ℚ) : ℚ :=
  (((after : ℚ) - (before : ℚ)) * 8) / 1000000 / duration

/-- Specification-side formula for the same quantity, written as in the
design document: counter delta times 8 over the product 1e6 times
duration. -/
def throughputSpecFormula (before after : Nat) (duration : ℚ) : ℚ :=
  (((after : ℚ) - (before : ℚ)) * 8) / (1000000 * duration)

/-- Effective pacing denominator of the paced sender (quic_client.py lines
52-61): a truthy target rate gives rate times 1e6 over 8 bytes per second,
while a missing target rate, or the falsy rate 0, silently falls back to
the default 15 Mbps. -/
def effectiveBytesPerSec (target_rate_mbps : Option ℚ) : ℚ :=
  match target_rate_mbps with
  | some r => if r = 0 then (15 * 1000000) / 8 else (r * 1000000) / 8
  | none => (15 * 1000000) / 8

/-- Inter-chunk sleep the paced sender computes before its send loop
(quic_client.py lines 55 and 60). -/
def sleep_time (chunk_size : ℚ) (target_rate_mbps : Option ℚ) : ℚ :=
  chunk_size / effectiveBytesPerSec target_rate_mbps

/-- Per-chunk sleep actually performed after a send that took the given
time (quic_client.py line 122): clamped at zero. -/
def sleep_duration (sleep_time elapsed : ℚ) : ℚ :=
  max 0 (sleep_time - elapsed)

/-- Rounding to two decimal places, modelling the round(x, 2) calls of the
source on non-tie values (sub-cent floating-point tie behavior is not
modelled). -/
def round2 (q : ℚ) : ℚ := ((round (q * 100) : ℤ) : ℚ) / 100

/-- Truncation toward zero, modelling the int(x) conversion of the
source. -/
def pyInt (q : ℚ) : ℤ := if q < 0 then ⌈q⌉ else ⌊q⌋

/-- Parsed JSON object of one raw-metrics line, with each of the three
field lookups the aggregator performs made optional: a missing field is a
KeyError in the source. -/
structure JsonRecord where
  time : ℤ
  rtt_ms : Option ℚ
  cwnd_bytes : Option ℚ
  deriving DecidableEq, Repr

/-- One line of the raw-metrics file as the aggregator sees it: either text
that fails JSON parsing, a JSON object without a time field, or a JSON
object with a time field and optional rtt and cwnd fields. -/
inductive RawLine
  | malformed
  | noTimeField
  | record (data : JsonRecord)
  deriving DecidableEq, Repr

/-- One entry of the metrics_by_time defaultdict of aggregate_metrics: an
integer second key with the rtt and cwnd sample lists collected for it. -/
structure MetricsEntry where
  t : ℤ
  rtt : List ℚ
  cwnd : List ℚ
  deriving DecidableEq, Repr

/-- The defaultdict state, as an insertion-ordered association list with
unique keys. -/
abbrev Metrics := List MetricsEntry

def hasKey (m : Metrics) (t : ℤ) : Bool := m.any (fun e => e.t == t)

/-- Accessing metrics_by_time at a key: the defaultdict inserts a fresh
entry with empty sample lists when the key is absent. -/
def touch (m : Metrics) (t : ℤ) : Metrics :=
  if hasKey m t then m else m ++ [⟨t, [], []⟩]

def appendRtt (m : Metrics) (t : ℤ) (v : ℚ) : Metrics :=
  m.map (fun e => if e.t == t then ⟨e.t, e.rtt ++ [v], e.cwnd⟩ else e)

def appendCwnd (m : Metrics) (t : ℤ) (v : ℚ) : Metrics :=
  m.map (fun e => if e.t == t then ⟨e.t, e.rtt, e.cwnd ++ [v]⟩ else e)

/-- Processing of one raw-metrics line by aggregate_metrics
(helper_quic.py lines 49-57). A parse failure or a missing time field
skips the line. Otherwise the defaultdict access metrics_by_time at t
creates the entry first; then the rtt_ms lookup either raises KeyError
(line skipped, entry kept) or appends the rtt sample; then the cwnd_bytes
lookup either raises KeyError (rtt append already retained) or appends the
cwnd sample. -/
def processLine (m : Metrics) : RawLine → Metrics
  | .malformed => m
  | .noTimeField => m
  | .record d =>
    match d.rtt_ms with
    | none => touch m d.time
    | some r =>
      match d.cwnd_bytes with
      | none => appendRtt (touch m d.time) d.time r
      | some c => appendCwnd (appendRtt (touch m d.time) d.time r) d.time c

/-- The metrics_by_time state after reading the whole raw-metrics file. -/
def buildMetrics (lines : List RawLine) : Metrics :=
  lines.foldl processLine []

/-- Sorted key iteration of the output loops: sorted(metrics_by_time.keys()). -/
def sortedKeys (m : Metrics) : List ℤ :=
  (m.map MetricsEntry.t).insertionSort (fun a b => a ≤ b)

def findEntry (m : Metrics) (t : ℤ) : Option MetricsEntry :=
  m.find? (fun e => e.t == t)

def rttAt (m : Metrics) (t : ℤ) : List ℚ :=
  ((findEntry m t).map MetricsEntry.rtt).getD []

def cwndAt (m : Metrics) (t : ℤ) : List ℚ :=
  ((findEntry m t).map MetricsEntry.cwnd).getD []

/-- Data rows of rtt.csv (helper_quic.py lines 73-76): for each key in
sorted order whose rtt sample list is nonempty, the key and the rounded
mean of its rtt samples; keys with no rtt samples produce no row. -/
def rtt_rows (m : Metrics) : List (ℤ × ℚ) :=
  (sortedKeys m).filterMap (fun t =>
    if rttAt m t ≠ [] then some (t, round2 ((rttAt m t).sum / ((rttAt m t).length : ℚ)))
    else none)

/-- Data rows of cwnd.csv (helper_quic.py lines 83-86): same shape with the
mean truncated to an integer. -/
def cwnd_rows (m : Metrics) : List (ℤ × ℤ) :=
  (sortedKeys m).filterMap (fun t =>
    if cwndAt m t ≠ [] then some (t, pyInt ((cwndAt m t).sum / ((cwndAt m t).length : ℚ)))
    else none)

/-- Output of aggregate_metrics: the data rows of the two CSV files it
writes. -/
structure AggregateOutput where
  rttRows : List (ℤ × ℚ)
  cwndRows : List (ℤ × ℤ)
  deriving DecidableEq, Repr

/-- Embedding of aggregate_metrics (helper_quic.py lines 41-98). The
argument is none when the raw-metrics file is missing: the source then
logs a warning and returns without writing any file. Otherwise the lines
are folded into metrics_by_time and the two CSV row lists are produced. -/
def aggregate_metrics (raw : Option (List RawLine)) : Option AggregateOutput :=
  match raw with
  | none => none
  | some lines =>
    let m := buildMetrics lines
    some ⟨rtt_rows m, cwnd_rows m⟩

/-- Metric record the paced sender buffers once per second and later writes
as one JSON line (quic_client.py lines 101-109): the time and rtt_ms
fields only; the cwnd_bytes field is commented out in the source. -/
def clientMetric (elapsed : ℤ) (rtt_ms : ℚ) : JsonRecord :=
  ⟨elapsed, some (round2 rtt_ms), none⟩

/-- Specification-side description of the rtt samples belonging to second
t: the rtt_ms values of all well-formed lines whose time field equals t. -/
def rttSamples (lines : List RawLine) (t : ℤ) : List ℚ :=
  lines.filterMap (fun l =>
    match l with
    | .malformed => none
    | .noTimeField => none
    | .record d => if d.time = t then d.rtt_ms else none)

/-- Specification-side description of the cwnd samples belonging to second
t: the cwnd_bytes values of all well-formed lines whose time field equals
t and whose rtt_ms field is present (the source appends cwnd only after
the rtt append succeeded). -/
def cwndSamples (lines : List RawLine) (t : ℤ) : List ℚ :=
  lines.filterMap (fun l =>
    match l with
    | .malformed => none
    | .noTimeField => none
    | .record d =>
      if d.time = t then (if d.rtt_ms.isSome then d.cwnd_bytes else none) else none)

/-- Arithmetic mean of a sample list, as in the design document. -/
def arithmeticMean (l : List ℚ) : ℚ := l.sum / (l.length : ℚ)

/-- Dictionary of per-interface throughput values built by
run_quic_experiments (helper_quic.py lines 206-213): one entry per
monitored interface, in list order, from the before and after transmitted
byte counters. -/
def switchThroughputTable (ifaces : List String) (tx1 tx2 : String → Nat)
    (duration : ℚ) : List (String × ℚ) :=
  ifaces.map (fun d => (d, interfaceThroughput (tx1 d) (tx2 d) duration))

/-- Data rows of switches.csv written by save_switch_throughput
(helper_quic.py lines 101-111): one row, interface and rounded throughput
and duration, per dictionary entry. -/
def save_switch_throughput (switch_throughput : List (String × ℚ))
    (duration : ℚ) : List (String × ℚ × ℚ) :=
  switch_throughput.map (fun e => (e.1, round2 e.2, duration))

/-- Observable steps of one run, in the vocabulary of run_quic_experiments
(helper_quic.py) and of its caller main (experiment_runner_quic.py). -/
inductive Event
  | snapshotBeforeTx (iface : String)
  | snapshotBeforeRx (iface : String)
  | generateCerts (host : Nat)
  | startServer (host : Nat)
  | settleSleep (seconds : Nat)
  | makeOutputDir
  | startClient (idx : Nat)
  | measureSleep (seconds : Nat)
  | snapshotAfterTx (iface : String)
  | snapshotAfterRx (iface : String)
  | aggregateStep
  | saveSwitchStep
  | stopServer (host : Nat)
  | stopClient (host : Nat)
  | removeMetricsFile
  | netStop
  deriving DecidableEq, Repr

/-- Position of each event kind in the straight-line body of
run_quic_experiments; netStop is the final net.stop() of the caller. Used
to state order properties of the trace. -/
def phase : Event → Nat
  | .snapshotBeforeTx _ => 0
  | .snapshotBeforeRx _ => 1
  | .generateCerts _ => 2
  | .startServer _ => 3
  | .settleSleep _ => 4
  | .makeOutputDir => 5
  | .startClient _ => 6
  | .measureSleep _ => 7
  | .snapshotAfterTx _ => 8
  | .snapshotAfterRx _ => 9
  | .aggregateStep => 10
  | .saveSwitchStep => 11
  | .stopServer _ => 12
  | .stopClient _ => 13
  | .removeMetricsFile => 14
  | .netStop => 15

/-- Order of two events by their position in the run body. -/
def lePhase (a b : Event) : Prop := phase a ≤ phase b

def isBeforeSnapshot : Event → Bool
  | .snapshotBeforeTx _ => true
  | .snapshotBeforeRx _ => true
  | _ => false

def isStartServer : Event → Bool
  | .startServer _ => true
  | _ => false

def isStartClient : Event → Bool
  | .startClient _ => true
  | _ => false

def isMeasureSleep : Event → Bool
  | .measureSleep _ => true
  | _ => false

def isAfterSnapshot : Event → Bool
  | .snapshotAfterTx _ => true
  | .snapshotAfterRx _ => true
  | _ => false

def isAggregateStep : Event → Bool
  | .aggregateStep => true
  | _ => false

/-- Event trace of run_quic_experiments (helper_quic.py lines 114-245) for
a run over the given monitored TX interfaces, optional extra RX
interfaces, host count and duration: the before-counter snapshots come
first (lines 126-137), then certificate generation and server start on the
destination hosts, hosts mid to number_of_hosts - 1 (lines 146-160), the
2 second settle sleep (line 163), output directory creation (line 167),
one client per source host 0 to mid - 1 (lines 183-197), the measurement
sleep of duration plus 4 seconds (line 202), the after-counter snapshots
(lines 204-221), aggregation and the CSV writes (lines 223-228), server
then client termination (lines 230-237), and raw-metrics file removal
(lines 239-243). -/
def runQuicSteps (switch_interface other_switch : List String)
    (number_of_hosts duration : Nat) : List Event :=
  let mid := number_of_hosts / 2
  (switch_interface.map Event.snapshotBeforeTx)
    ++ (other_switch.map Event.snapshotBeforeRx)
    ++ ((List.range' mid (number_of_hosts - mid)).map Event.generateCerts)
    ++ ((List.range' mid (number_of_hosts - mid)).map Event.startServer)
    ++ [Event.settleSleep 2]
    ++ [Event.makeOutputDir]
    ++ ((List.range mid).map Event.startClient)
    ++ [Event.measureSleep (duration + 4)]
    ++ (switch_interface.map Event.snapshotAfterTx)
    ++ (other_switch.map Event.snapshotAfterRx)
    ++ [Event.aggregateStep]
    ++ [Event.saveSwitchStep]
    ++ ((List.range' mid (number_of_hosts - mid)).map Event.stopServer)
    ++ ((List.range number_of_hosts).map Event.stopClient)
    ++ [Event.removeMetricsFile]

/-- Execution of the run body when a step may raise: the events before the
first failing step are performed; the failing step and everything after it
are skipped, because run_quic_experiments has no try/finally. The Bool
records whether an exception propagated out of the body. -/
def execUntilFailure (steps : List Event) (fails : Event → Bool) :
    List Event × Bool :=
  match steps with
  | [] => ([], false)
  | e :: rest =>
      if fails e then ([], true)
      else
        let r := execUntilFailure rest fails
        (e :: r.1, r.2)

/-- Events performed by main of experiment_runner_quic.py (lines 138-186)
around one run: the run body executes until its first failing step, any
exception including KeyboardInterrupt is caught by the surrounding
try/except, and net.stop() always runs afterwards. -/
def mainEvents (steps : List Event) (fails : Event → Bool) : List Event :=
  (execUntilFailure steps fails).1 ++ [Event.netStop]

/-- Outcome of one invocation of the experiment subprocess at one sweep
point. -/
inductive RunOutcome
  | success
  | calledProcessError
  | keyboardInterrupt
  deriving DecidableEq, Repr

/-- Embedding of run_experiment (exp_parkinglot.py lines 30-57): True on a
successful subprocess run; CalledProcessError and KeyboardInterrupt are
both caught inside the function and yield False, so no outcome propagates
an exception to the sweep loop. -/
def run_experiment (outcome : RunOutcome) : Bool :=
  match outcome with
  | .success => true
  | .calledProcessError => false
  | .keyboardInterrupt => false

/-- Bandwidth values of the sweep (exp_parkinglot.py line 14). -/
def BANDWIDTHS : List Nat := [10, 15, 20, 35]

/-- Embedding of run_varying_bandwidth (exp_parkinglot.py lines 107-139):
the loop visits every bandwidth in order; a point contributes a summary
row exactly when its run returned True and its result files were
extracted. The first component records the points the loop attempted, the
second the bandwidths of the summary rows. -/
def run_varying_bandwidth (outcome : Nat → RunOutcome)
    (extractOk : Nat → Bool) : List Nat × List Nat :=
  BANDWIDTHS.foldl
    (fun acc bw =>
      (acc.1 ++ [bw],
       if run_experiment (outcome bw) && extractOk bw then acc.2 ++ [bw] else acc.2))
    ([], [])

/-- C2: for every monitored interface and every counter pair with after at
least before and positive duration, the throughput the run orchestrator
computes equals exactly the counter delta times 8 over 1e6 over the
duration, agrees with the design formula delta times 8 over the product of
1e6 and the duration, and both divisors involved are nonzero. -/
theorem C2_throughput_formula (before after : Nat) (duration : ℚ)
    (hba : before ≤ after) (hd : 0 < duration) :
    interfaceThroughput before after duration
      = (((after : ℚ) - (before : ℚ)) * 8) / 1000000 / duration
    ∧ interfaceThroughput before after duration
      = throughputSpecFormula before after duration
    ∧ (1000000 : ℚ) ≠ 0 ∧ duration ≠ 0 ∧ (1000000 : ℚ) * duration ≠ 0 := by
  refine ⟨rfl, ?_, by norm_num, ne_of_gt hd, ?_⟩
  · unfold interfaceThroughput throughputSpecFormula
    rw [div_div]
  · positivity

/-- Witness for C2 at before 0, after 125000, duration 5: hypotheses hold
and the computed throughput is one fifth of a Mbps. -/
theorem C2_throughput_formula_witness :
    interfaceThroughput 0 125000 5 = throughputSpecFormula 0 125000 5
    ∧ interfaceThroughput 0 125000 5 = 1 / 5 := by
  refine ⟨(C2_throughput_formula 0 125000 5 (by norm_num) (by norm_num)).2.1, ?_⟩
  rw [(C2_throughput_formula 0 125000 5 (by norm_num) (by norm_num)).1]
  norm_num

/-- C3: for every positive target rate and chunk size the paced sender
computes the inter-chunk sleep as chunk size over rate times 1e6 over 8;
at 8 Mbps and one million byte chunks that is exactly one second; and the
sleep actually performed after a chunk is clamped at zero, hence never
negative however long the send took. -/
theorem C3_pacing (target_rate_mbps chunk_size : ℚ)
    (hr : 0 < target_rate_mbps) (hc : 0 < chunk_size) :
    sleep_time chunk_size (some target_rate_mbps)
      = chunk_size / (target_rate_mbps * 1000000 / 8)
    ∧ sleep_time 1000000 (some 8) = 1
    ∧ ∀ elapsed : ℚ,
        0 ≤ sleep_duration (sleep_time chunk_size (some target_rate_mbps)) elapsed := by
  refine ⟨?_, ?_, ?_⟩
  · simp only [sleep_time, effectiveBytesPerSec]
    rw [if_neg (ne_of_gt hr)]
  · norm_num [sleep_time, effectiveBytesPerSec]
  · intro elapsed
    exact le_max_left 0 _

/-- Witness for C3 at rate 8 and chunk size 1000000. -/
theorem C3_pacing_witness :
    sleep_time 1000000 (some 8) = 1
    ∧ 0 ≤ sleep_duration (sleep_time 1000000 (some 8)) 7 :=
  ⟨(C3_pacing 8 1000000 (by norm_num) (by norm_num)).2.1,
   (C3_pacing 8 1000000 (by norm_num) (by norm_num)).2.2 7⟩

/-- C10: invoked with no target rate or the falsy rate 0, the paced sender
neither fails nor sends unpaced: both cases take the default branch, a
nonzero 15 Mbps pacing denominator, so the caller gets a 15 Mbps paced
flow rather than a zero-rate flow. -/
theorem C10_default_rate_fallback :
    effectiveBytesPerSec none = 15 * 1000000 / 8
    ∧ effectiveBytesPerSec (some 0) = 15 * 1000000 / 8
    ∧ effectiveBytesPerSec (some 0) ≠ 0
    ∧ ∀ chunk_size : ℚ,
        sleep_time chunk_size (some 0) = chunk_size / (15 * 1000000 / 8)
        ∧ sleep_time chunk_size none = chunk_size / (15 * 1000000 / 8) := by
  refine ⟨rfl, by norm_num [effectiveBytesPerSec], by norm_num [effectiveBytesPerSec], ?_⟩
  intro c
  constructor <;> simp [sleep_time, effectiveBytesPerSec]

lemma hostName_ne_s1 (i : Nat) : hostName i ≠ "s1" := by
  intro h
  have hd := congrArg String.data h
  simp only [hostName, String.data_append] at hd
  simp at hd

lemma hostName_ne_s2 (i : Nat) : hostName i ≠ "s2" := by
  intro h
  have hd := congrArg String.data h
  simp only [hostName, String.data_append] at hd
  simp at hd

lemma usedPorts_addHost (ts : TopoState) (name : String) (cpu : Option ℚ)
    (node : String) : usedPorts (addHost ts name cpu) node = usedPorts ts node := rfl

lemma usedPorts_addLink (ts : TopoState) (a b : String) (bw : ℚ) (d : String)
    (lo : ℚ) (mq : Option Nat) (node : String) :
    usedPorts (addLink ts a b bw d lo mq) node
      = usedPorts ts node + (if a == node || b == node then 1 else 0) := by
  simp only [usedPorts, addLink, List.filter_append, List.length_append]
  congr 1
  by_cases h : (a == node || b == node) = true
  · simp [List.filter, h]
  · simp [List.filter, h]

lemma switches_foldl_addSrcHost (is : List Nat) (ts : TopoState) :
    (is.foldl DumbbellTopo.addSrcHost ts).switches = ts.switches := by
  induction is generalizing ts with
  | nil => rfl
  | cons i is ih => rw [List.foldl_cons, ih]; rfl

lemma switches_foldl_addDstHost (is : List Nat) (ts : TopoState) :
    (is.foldl DumbbellTopo.addDstHost ts).switches = ts.switches := by
  induction is generalizing ts with
  | nil => rfl
  | cons i is ih => rw [List.foldl_cons, ih]; rfl

lemma usedPorts_addSrcHost_s1 (ts : TopoState) (i : Nat) :
    usedPorts (DumbbellTopo.addSrcHost ts i) "s1" = usedPorts ts "s1" + 1 := by
  rw [DumbbellTopo.addSrcHost, usedPorts_addLink, usedPorts_addHost]
  simp

lemma usedPorts_addSrcHost_s2 (ts : TopoState) (i : Nat) :
    usedPorts (DumbbellTopo.addSrcHost ts i) "s2" = usedPorts ts "s2" := by
  rw [DumbbellTopo.addSrcHost, usedPorts_addLink, usedPorts_addHost]
  simp [hostName_ne_s2 i]

lemma usedPorts_addDstHost_s2 (ts : TopoState) (i : Nat) :
    usedPorts (DumbbellTopo.addDstHost ts i) "s2" = usedPorts ts "s2" + 1 := by
  rw [DumbbellTopo.addDstHost, usedPorts_addLink, usedPorts_addHost]
  simp

lemma usedPorts_addDstHost_s1 (ts : TopoState) (i : Nat) :
    usedPorts (DumbbellTopo.addDstHost ts i) "s1" = usedPorts ts "s1" := by
  rw [DumbbellTopo.addDstHost, usedPorts_addLink, usedPorts_addHost]
  simp [hostName_ne_s1 i]

lemma usedPorts_foldl_addSrcHost_s1 (is : List Nat) (ts : TopoState) :
    usedPorts (is.foldl DumbbellTopo.addSrcHost ts) "s1"
      = usedPorts ts "s1" + is.length := by
  induction is generalizing ts with
  | nil => simp
  | cons i is ih =>
      rw [List.foldl_cons, ih, usedPorts_addSrcHost_s1, List.length_cons]
      omega

lemma usedPorts_foldl_addSrcHost_s2 (is : List Nat) (ts : TopoState) :
    usedPorts (is.foldl DumbbellTopo.addSrcHost ts) "s2" = usedPorts ts "s2" := by
  induction is generalizing ts with
  | nil => rfl
  | cons i is ih => rw [List.foldl_cons, ih, usedPorts_addSrcHost_s2]

lemma usedPorts_foldl_addDstHost_s2 (is : List Nat) (ts : TopoState) :
    usedPorts (is.foldl DumbbellTopo.addDstHost ts) "s2"
      = usedPorts ts "s2" + is.length := by
  induction is generalizing ts with
  | nil => simp
  | cons i is ih =>
      rw [List.foldl_cons, ih, usedPorts_addDstHost_s2, List.length_cons]
      omega

lemma usedPorts_foldl_addDstHost_s1 (is : List Nat) (ts : TopoState) :
    usedPorts (is.foldl DumbbellTopo.addDstHost ts) "s1" = usedPorts ts "s1" := by
  induction is generalizing ts with
  | nil => rfl
  | cons i is ih => rw [List.foldl_cons, ih, usedPorts_addDstHost_s1]

lemma links_foldl_addSrcHost (is : List Nat) (ts : TopoState) :
    ∀ l ∈ (is.foldl DumbbellTopo.addSrcHost ts).links,
      l ∈ ts.links ∨ ∃ i, l.node1 = hostName i := by
  induction is generalizing ts with
  | nil => exact fun l hl => Or.inl hl
  | cons i is ih =>
      intro l hl
      rw [List.foldl_cons] at hl
      rcases ih _ l hl with h | h
      · simp only [DumbbellTopo.addSrcHost, addLink, addHost, List.mem_append,
          List.mem_singleton] at h
        rcases h with h | h
        · exact Or.inl h
        · exact Or.inr ⟨i, by rw [h]⟩
      · exact Or.inr h

lemma links_foldl_addDstHost (is : List Nat) (ts : TopoState) :
    ∀ l ∈ (is.foldl DumbbellTopo.addDstHost ts).links,
      l ∈ ts.links ∨ ∃ i, l.node1 = hostName i := by
  induction is generalizing ts with
  | nil => exact fun l hl => Or.inl hl
  | cons i is ih =>
      intro l hl
      rw [List.foldl_cons] at hl
      rcases ih _ l hl with h | h
      · simp only [DumbbellTopo.addDstHost, addLink, addHost, List.mem_append,
          List.mem_singleton] at h
        rcases h with h | h
        · exact Or.inl h
        · exact Or.inr ⟨i, by rw [h]⟩
      · exact Or.inr h

/-- Structure of the built dumbbell: its unique inter-switch link sits on
port mid+1 of s1 and port (number_of_hosts - mid)+1 of s2, where mid is
half the host count rounded down. -/
theorem interSwitchIfaces_build (bw : ℚ) (delay : String) (loss : ℚ) (n : Nat) :
    interSwitchIfaces (DumbbellTopo.build bw delay loss n)
      = [ifaceName "s1" (n / 2 + 1), ifaceName "s2" (n - n / 2 + 1)] := by
  have base : addSwitch (addSwitch TopoState.empty "s1") "s2"
      = ⟨[], ["s1", "s2"], []⟩ := rfl
  rw [DumbbellTopo.build]
  set ts1 := (List.range (n / 2)).foldl DumbbellTopo.addSrcHost
    (addSwitch (addSwitch TopoState.empty "s1") "s2") with hts1
  set ts2 := (List.range' (n / 2) (n - n / 2)).foldl DumbbellTopo.addDstHost ts1 with hts2
  have hsw : ts2.switches = ["s1", "s2"] := by
    rw [hts2, switches_foldl_addDstHost, hts1, switches_foldl_addSrcHost, base]
  have hs1 : usedPorts ts2 "s1" = n / 2 := by
    rw [hts2, usedPorts_foldl_addDstHost_s1, hts1, usedPorts_foldl_addSrcHost_s1, base]
    simp [usedPorts, List.length_range]
  have hs2 : usedPorts ts2 "s2" = n - n / 2 := by
    rw [hts2, usedPorts_foldl_addDstHost_s2, hts1, usedPorts_foldl_addSrcHost_s2, base]
    simp [usedPorts, List.length_range']
  have hmem : ∀ l ∈ ts2.links, ∃ i, l.node1 = hostName i := by
    intro l hl
    rcases links_foldl_addDstHost _ _ l hl with h | h
    · rcases links_foldl_addSrcHost _ _ l h with h2 | h2
      · rw [base] at h2
        simp at h2
      · exact h2
    · exact h
  rw [interSwitchIfaces, interSwitchLinks, addLink]
  simp only [List.filter_append]
  have hnil : ts2.links.filter
      (fun l => ts2.switches.contains l.node1 && ts2.switches.contains l.node2) = [] := by
    rw [List.filter_eq_nil_iff]
    intro l hl
    rcases hmem l hl with ⟨i, hi⟩
    rw [hsw]
    simp [hi, hostName_ne_s1 i, hostName_ne_s2 i]
  rw [hnil]
  simp [hsw, hs1, hs2, linkIfaces]

/-- C1 counterexample: at the claimed scenario host count 4 (even and at
least 4) with bw 10, delay 1ms and loss 0, the hardcoded monitored
interface s1-eth21 is not an interface of the inter-switch bottleneck link
of the built dumbbell (those are s1-eth3 and s2-eth3); it is not an
interface of the topology at all, so a run cannot produce a switches.csv
row for the bottleneck interface. -/
theorem C1_counterexample :
    DumbbellTopo.switch_interface = ["s1-eth21"]
    ∧ "s1-eth21" ∉ interSwitchIfaces (DumbbellTopo.build 10 "1ms" 0 4)
    ∧ "s1-eth21" ∉ allIfaces (DumbbellTopo.build 10 "1ms" 0 4) := by
  refine ⟨rfl, ?_, ?_⟩ <;> decide

/-- C1 amended: the dumbbell monitored-interface list is the constant
s1-eth21; the inter-switch bottleneck link of a build with n hosts has
interfaces s1-eth(n/2+1) and s2-eth(n-n/2+1), so the monitored name
matches the bottleneck for the default 40 hosts but, for the claimed
4-host scenario, the bottleneck interfaces are s1-eth3 and s2-eth3 and
s1-eth21 does not exist in the topology; switches.csv always carries
exactly one data row per monitored interface, hence one row for the
dumbbell. -/
theorem C1_amended :
    DumbbellTopo.switch_interface = ["s1-eth21"]
    ∧ (∀ bw delay loss n, interSwitchIfaces (DumbbellTopo.build bw delay loss n)
        = [ifaceName "s1" (n / 2 + 1), ifaceName "s2" (n - n / 2 + 1)])
    ∧ "s1-eth21" ∈ interSwitchIfaces (DumbbellTopo.build 10 "1ms" 0 40)
    ∧ interSwitchIfaces (DumbbellTopo.build 10 "1ms" 0 4) = ["s1-eth3", "s2-eth3"]
    ∧ "s1-eth21" ∉ allIfaces (DumbbellTopo.build 10 "1ms" 0 4)
    ∧ (∀ tx1 tx2 : String → Nat, ∀ duration : ℚ,
        (save_switch_throughput
          (switchThroughputTable DumbbellTopo.switch_interface tx1 tx2 duration)
          duration).length = 1) := by
  refine ⟨rfl, interSwitchIfaces_build, by decide, by decide, by decide, ?_⟩
  intro tx1 tx2 duration
  simp [save_switch_throughput, switchThroughputTable, DumbbellTopo.switch_interface]

lemma rttAt_nil (t : ℤ) : rttAt [] t = [] := rfl

lemma cwndAt_nil (t : ℤ) : cwndAt [] t = [] := rfl

lemma findEntry_cons (e : MetricsEntry) (m : Metrics) (t : ℤ) :
    findEntry (e :: m) t = if e.t == t then some e else findEntry m t := by
  simp only [findEntry, List.find?]
  cases h : (e.t == t) with
  | true => simp [h]
  | false => simp [h]

lemma rttAt_cons (e : MetricsEntry) (m : Metrics) (t : ℤ) :
    rttAt (e :: m) t = if e.t == t then e.rtt else rttAt m t := by
  rw [rttAt, findEntry_cons]
  by_cases h : (e.t == t) = true
  · rw [if_pos h, if_pos h]
    rfl
  · rw [if_neg h, if_neg h]
    rfl

lemma cwndAt_cons (e : MetricsEntry) (m : Metrics) (t : ℤ) :
    cwndAt (e :: m) t = if e.t == t then e.cwnd else cwndAt m t := by
  rw [cwndAt, findEntry_cons]
  by_cases h : (e.t == t) = true
  · rw [if_pos h, if_pos h]
    rfl
  · rw [if_neg h, if_neg h]
    rfl

lemma rttAt_append_empty (m : Metrics) (t0 t : ℤ) :
    rttAt (m ++ [⟨t0, [], []⟩]) t = rttAt m t := by
  induction m with
  | nil =>
      rw [List.nil_append, rttAt_cons, rttAt_nil]
      split <;> rfl
  | cons e m ih =>
      rw [List.cons_append, rttAt_cons, rttAt_cons, ih]

lemma cwndAt_append_empty (m : Metrics) (t0 t : ℤ) :
    cwndAt (m ++ [⟨t0, [], []⟩]) t = cwndAt m t := by
  induction m with
  | nil =>
      rw [List.nil_append, cwndAt_cons, cwndAt_nil]
      split <;> rfl
  | cons e m ih =>
      rw [List.cons_append, cwndAt_cons, cwndAt_cons, ih]

lemma rttAt_touch (m : Metrics) (t0 t : ℤ) : rttAt (touch m t0) t = rttAt m t := by
  rw [touch]
  split
  · rfl
  · exact rttAt_append_empty m t0 t

lemma cwndAt_touch (m : Metrics) (t0 t : ℤ) : cwndAt (touch m t0) t = cwndAt m t := by
  rw [touch]
  split
  · rfl
  · exact cwndAt_append_empty m t0 t

lemma hasKey_touch (m : Metrics) (t0 : ℤ) : hasKey (touch m t0) t0 = true := by
  rw [touch]
  by_cases h : hasKey m t0 = true
  · rw [if_pos h]
    exact h
  · rw [if_neg h]
    simp [hasKey]

lemma appendRtt_cons (e : MetricsEntry) (m : Metrics) (t0 : ℤ) (v : ℚ) :
    appendRtt (e :: m) t0 v
      = (if e.t == t0 then ⟨e.t, e.rtt ++ [v], e.cwnd⟩ else e) :: appendRtt m t0 v := rfl

lemma appendCwnd_cons (e : MetricsEntry) (m : Metrics) (t0 : ℤ) (v : ℚ) :
    appendCwnd (e :: m) t0 v
      = (if e.t == t0 then ⟨e.t, e.rtt, e.cwnd ++ [v]⟩ else e) :: appendCwnd m t0 v := rfl

lemma hasKey_appendRtt (m : Metrics) (t0 t : ℤ) (v : ℚ) :
    hasKey (appendRtt m t0 v) t = hasKey m t := by
  induction m with
  | nil => rfl
  | cons e m ih =>
      rw [appendRtt_cons]
      by_cases h1 : (e.t == t0) = true
      · rw [if_pos h1]
        simp only [hasKey, List.any_cons] at *
        rw [ih]
      · rw [if_neg h1]
        simp only [hasKey, List.any_cons] at *
        rw [ih]

lemma rttAt_appendRtt_ne (m : Metrics) (t0 t : ℤ) (v : ℚ) (h : t ≠ t0) :
    rttAt (appendRtt m t0 v) t = rttAt m t := by
  induction m with
  | nil => rfl
  | cons e m ih =>
      rw [appendRtt_cons]
      by_cases h1 : e.t = t0
      · have hbe : (e.t == t0) = true := by simpa using h1
        have hne : (e.t == t) = false := by
          rw [h1]
          exact beq_eq_false_iff_ne.mpr (Ne.symm h)
        rw [if_pos hbe, rttAt_cons, rttAt_cons]
        simp only [hne, Bool.false_eq_true, if_false]
        exact ih
      · have hbe : ¬ ((e.t == t0) = true) := by simpa using h1
        rw [if_neg hbe, rttAt_cons, rttAt_cons, ih]

lemma rttAt_appendRtt_eq (m : Metrics) (t0 : ℤ) (v : ℚ) (h : hasKey m t0 = true) :
    rttAt (appendRtt m t0 v) t0 = rttAt m t0 ++ [v] := by
  induction m with
  | nil => simp [hasKey] at h
  | cons e m ih =>
      rw [appendRtt_cons]
      by_cases h1 : e.t = t0
      · have hbe : (e.t == t0) = true := by simpa using h1
        rw [if_pos hbe, rttAt_cons, rttAt_cons]
        simp only [hbe, if_true]
      · have hbe : (e.t == t0) = false := by simpa using h1
        rw [if_neg (by simp [hbe]), rttAt_cons, rttAt_cons]
        simp only [hbe, Bool.false_eq_true, if_false]
        apply ih
        simp only [hasKey, List.any_cons, hbe, Bool.false_or] at h
        exact h

lemma cwndAt_appendRtt (m : Metrics) (t0 t : ℤ) (v : ℚ) :
    cwndAt (appendRtt m t0 v) t = cwndAt m t := by
  induction m with
  | nil => rfl
  | cons e m ih =>
      rw [appendRtt_cons]
      by_cases h1 : (e.t == t0) = true
      · rw [if_pos h1, cwndAt_cons, cwndAt_cons, ih]
      · rw [if_neg h1, cwndAt_cons, cwndAt_cons, ih]

lemma rttAt_appendCwnd (m : Metrics) (t0 t : ℤ) (v : ℚ) :
    rttAt (appendCwnd m t0 v) t = rttAt m t := by
  induction m with
  | nil => rfl
  | cons e m ih =>
      rw [appendCwnd_cons]
      by_cases h1 : (e.t == t0) = true
      · rw [if_pos h1, rttAt_cons, rttAt_cons, ih]
      · rw [if_neg h1, rttAt_cons, rttAt_cons, ih]

lemma cwndAt_appendCwnd_ne (m : Metrics) (t0 t : ℤ) (v : ℚ) (h : t ≠ t0) :
    cwndAt (appendCwnd m t0 v) t = cwndAt m t := by
  induction m with
  | nil => rfl
  | cons e m ih =>
      rw [appendCwnd_cons]
      by_cases h1 : e.t = t0
      · have hbe : (e.t == t0) = true := by simpa using h1
        have hne : (e.t == t) = false := by
          rw [h1]
          exact beq_eq_false_iff_ne.mpr (Ne.symm h)
        rw [if_pos hbe, cwndAt_cons, cwndAt_cons]
        simp only [hne, Bool.false_eq_true, if_false]
        exact ih
      · have hbe : ¬ ((e.t == t0) = true) := by simpa using h1
        rw [if_neg hbe, cwndAt_cons, cwndAt_cons, ih]

lemma cwndAt_appendCwnd_eq (m : Metrics) (t0 : ℤ) (v : ℚ) (h : hasKey m t0 = true) :
    cwndAt (appendCwnd m t0 v) t0 = cwndAt m t0 ++ [v] := by
  induction m with
  | nil => simp [hasKey] at h
  | cons e m ih =>
      rw [appendCwnd_cons]
      by_cases h1 : e.t = t0
      · have hbe : (e.t == t0) = true := by simpa using h1
        rw [if_pos hbe, cwndAt_cons, cwndAt_cons]
        simp only [hbe, if_true]
      · have hbe : (e.t == t0) = false := by simpa using h1
        rw [if_neg (by simp [hbe]), cwndAt_cons, cwndAt_cons]
        simp only [hbe, Bool.false_eq_true, if_false]
        apply ih
        simp only [hasKey, List.any_cons, hbe, Bool.false_or] at h
        exact h

lemma rttAt_processLine (m : Metrics) (l : RawLine) (t : ℤ) :
    rttAt (processLine m l) t = rttAt m t ++ rttSamples [l] t := by
  cases l with
  | malformed => simp [processLine, rttSamples]
  | noTimeField => simp [processLine, rttSamples]
  | record d =>
      simp only [processLine]
      cases hr : d.rtt_ms with
      | none => simp [rttSamples, hr, rttAt_touch]
      | some r =>
          simp only [hr]
          cases hc : d.cwnd_bytes with
          | none =>
              simp only [hc]
              by_cases ht : t = d.time
              · subst ht
                rw [rttAt_appendRtt_eq _ _ _ (hasKey_touch m d.time), rttAt_touch]
                simp [rttSamples, hr]
              · rw [rttAt_appendRtt_ne _ _ _ _ ht, rttAt_touch]
                simp [rttSamples, hr, Ne.symm ht]
          | some c =>
              simp only [hc]
              rw [rttAt_appendCwnd]
              by_cases ht : t = d.time
              · subst ht
                rw [rttAt_appendRtt_eq _ _ _ (hasKey_touch m d.time), rttAt_touch]
                simp [rttSamples, hr]
              · rw [rttAt_appendRtt_ne _ _ _ _ ht, rttAt_touch]
                simp [rttSamples, hr, Ne.symm ht]

lemma cwndAt_processLine (m : Metrics) (l : RawLine) (t : ℤ) :
    cwndAt (processLine m l) t = cwndAt m t ++ cwndSamples [l] t := by
  cases l with
  | malformed => simp [processLine, cwndSamples]
  | noTimeField => simp [processLine, cwndSamples]
  | record d =>
      simp only [processLine]
      cases hr : d.rtt_ms with
      | none => simp [cwndSamples, hr, cwndAt_touch]
      | some r =>
          simp only [hr]
          cases hc : d.cwnd_bytes with
          | none =>
              simp only [hc]
              rw [cwndAt_appendRtt, cwndAt_touch]
              simp [cwndSamples, hc]
          | some c =>
              simp only [hc]
              by_cases ht : t = d.time
              · subst ht
                have hk : hasKey (appendRtt (touch m d.time) d.time r) d.time = true := by
                  rw [hasKey_appendRtt]
                  exact hasKey_touch m d.time
                rw [cwndAt_appendCwnd_eq _ _ _ hk, cwndAt_appendRtt, cwndAt_touch]
                simp [cwndSamples, hr, hc]
              · rw [cwndAt_appendCwnd_ne _ _ _ _ ht, cwndAt_appendRtt, cwndAt_touch]
                simp [cwndSamples, Ne.symm ht]

lemma rttSamples_cons (l : RawLine) (ls : List RawLine) (t : ℤ) :
    rttSamples (l :: ls) t = rttSamples [l] t ++ rttSamples ls t := by
  rw [rttSamples, rttSamples, rttSamples,
    show l :: ls = [l] ++ ls from rfl, List.filterMap_append]

lemma cwndSamples_cons (l : RawLine) (ls : List RawLine) (t : ℤ) :
    cwndSamples (l :: ls) t = cwndSamples [l] t ++ cwndSamples ls t := by
  rw [cwndSamples, cwndSamples, cwndSamples,
    show l :: ls = [l] ++ ls from rfl, List.filterMap_append]

lemma rttAt_foldl (lines : List RawLine) (m : Metrics) (t : ℤ) :
    rttAt (lines.foldl processLine m) t = rttAt m t ++ rttSamples lines t := by
  induction lines generalizing m with
  | nil => simp [rttSamples]
  | cons l ls ih =>
      rw [List.foldl_cons, ih, rttAt_processLine, rttSamples_cons l ls t, List.append_assoc]

lemma cwndAt_foldl (lines : List RawLine) (m : Metrics) (t : ℤ) :
    cwndAt (lines.foldl processLine m) t = cwndAt m t ++ cwndSamples lines t := by
  induction lines generalizing m with
  | nil => simp [cwndSamples]
  | cons l ls ih =>
      rw [List.foldl_cons, ih, cwndAt_processLine, cwndSamples_cons l ls t, List.append_assoc]

/-- Invariant of the aggregator state: after reading all lines, the rtt
sample list recorded for second t is exactly the list of rtt_ms values of
the well-formed lines whose time field is t, in file order. -/
theorem rttAt_buildMetrics (lines : List RawLine) (t : ℤ) :
    rttAt (buildMetrics lines) t = rttSamples lines t := by
  have h := rttAt_foldl lines [] t
  rw [rttAt_nil, List.nil_append] at h
  exact h

/-- Companion invariant for the cwnd sample lists. -/
theorem cwndAt_buildMetrics (lines : List RawLine) (t : ℤ) :
    cwndAt (buildMetrics lines) t = cwndSamples lines t := by
  have h := cwndAt_foldl lines [] t
  rw [cwndAt_nil, List.nil_append] at h
  exact h

lemma mem_sortedKeys (m : Metrics) (t : ℤ) :
    t ∈ sortedKeys m ↔ t ∈ m.map MetricsEntry.t := by
  rw [sortedKeys]
  exact (List.perm_insertionSort _ _).mem_iff

lemma mem_keys_of_rttAt_ne (m : Metrics) (t : ℤ) (h : rttAt m t ≠ []) :
    t ∈ m.map MetricsEntry.t := by
  rw [rttAt, findEntry] at h
  cases hf : m.find? (fun e => e.t == t) with
  | none =>
      rw [hf] at h
      simp at h
  | some e =>
      have he := List.mem_of_find?_eq_some hf
      have hp := List.find?_some hf
      rw [List.mem_map]
      exact ⟨e, he, by simpa using hp⟩

lemma mem_keys_of_cwndAt_ne (m : Metrics) (t : ℤ) (h : cwndAt m t ≠ []) :
    t ∈ m.map MetricsEntry.t := by
  rw [cwndAt, findEntry] at h
  cases hf : m.find? (fun e => e.t == t) with
  | none =>
      rw [hf] at h
      simp at h
  | some e =>
      have he := List.mem_of_find?_eq_some hf
      have hp := List.find?_some hf
      rw [List.mem_map]
      exact ⟨e, he, by simpa using hp⟩

/-- Characterization of the rtt.csv rows: a pair is a row exactly when the
second has at least one rtt sample and the value is the rounded mean of
those samples. -/
theorem mem_rtt_rows (m : Metrics) (t : ℤ) (v : ℚ) :
    (t, v) ∈ rtt_rows m ↔
      rttAt m t ≠ [] ∧ v = round2 ((rttAt m t).sum / ((rttAt m t).length : ℚ)) := by
  rw [rtt_rows, List.mem_filterMap]
  constructor
  · rintro ⟨t0, _ht0, hf⟩
    by_cases h : rttAt m t0 = []
    · rw [if_neg (by simp [h])] at hf
      exact absurd hf (by simp)
    · rw [if_pos (by simpa using h)] at hf
      have h1 := Option.some.inj hf
      have h2 : t0 = t := congrArg Prod.fst h1
      subst h2
      exact ⟨h, (congrArg Prod.snd h1).symm⟩
  · rintro ⟨hne, hv⟩
    refine ⟨t, ?_, ?_⟩
    · rw [mem_sortedKeys]
      exact mem_keys_of_rttAt_ne m t hne
    · rw [if_pos (by simpa using hne), hv]

lemma cwnd_rows_eq_nil (m : Metrics) (h : ∀ t, cwndAt m t = []) :
    cwnd_rows m = [] := by
  rw [cwnd_rows]
  rw [List.filterMap_eq_nil_iff]
  intro t _ht
  rw [if_neg (by simp [h t])]

/-- C4 counterexample: three raw-metric lines for second 0 carry the rtt
samples 0.01, 0.02 and 0.02, whose arithmetic mean is 1/60; the row the
aggregator writes for second 0 carries 0.02 = 1/50, the mean rounded to
two decimals, which is not the mean. -/
theorem C4_counterexample :
    rtt_rows (buildMetrics
      [RawLine.record ⟨0, some (1 / 100), none⟩,
       RawLine.record ⟨0, some (2 / 100), none⟩,
       RawLine.record ⟨0, some (2 / 100), none⟩]) = [(0, 1 / 50)]
    ∧ arithmeticMean (rttSamples
      [RawLine.record ⟨0, some (1 / 100), none⟩,
       RawLine.record ⟨0, some (2 / 100), none⟩,
       RawLine.record ⟨0, some (2 / 100), none⟩] 0) = 1 / 60
    ∧ (1 / 50 : ℚ) ≠ 1 / 60 := by
  refine ⟨?_, ?_, by norm_num⟩
  · simp [rtt_rows, buildMetrics, processLine, touch, hasKey, appendRtt, appendCwnd,
      sortedKeys, rttAt, findEntry, List.insertionSort, List.orderedInsert, round2, round_eq]
    norm_num
  · simp [arithmeticMean, rttSamples]
    norm_num

/-- C4 amended: a pair (t, v) is a row of rtt.csv exactly when second t
has at least one rtt sample among the well-formed raw-metric lines, and
then v is the arithmetic mean of those samples rounded to two decimal
places; a second with zero samples produces no row. -/
theorem C4_amended (lines : List RawLine) (t : ℤ) (v : ℚ) :
    (t, v) ∈ rtt_rows (buildMetrics lines)
      ↔ rttSamples lines t ≠ []
        ∧ v = round2 (arithmeticMean (rttSamples lines t)) := by
  rw [mem_rtt_rows, rttAt_buildMetrics, arithmeticMean]

/-- C9: inserting one line of garbage text that fails JSON parsing
anywhere in the raw-metrics file leaves the aggregated rtt.csv and
cwnd.csv rows identical to those of the same file with the garbage line
removed, and a missing raw-metrics file skips aggregation entirely instead
of raising. -/
theorem C9_malformed_lines_skipped (l1 l2 : List RawLine) :
    aggregate_metrics (some (l1 ++ RawLine.malformed :: l2))
      = aggregate_metrics (some (l1 ++ l2))
    ∧ aggregate_metrics none = none := by
  refine ⟨?_, rfl⟩
  have hb : buildMetrics (l1 ++ RawLine.malformed :: l2) = buildMetrics (l1 ++ l2) := by
    rw [buildMetrics, buildMetrics, List.foldl_append, List.foldl_append, List.foldl_cons]
    rfl
  rw [aggregate_metrics, aggregate_metrics, hb]

/-- C5 counterexample: the metric record the paced sender produces for
second 1 with smoothed rtt 10 ms has no cwnd_bytes field, and aggregating
a raw-metrics file holding exactly that record yields an rtt.csv row for
second 1 (the second has a sample) but an empty cwnd.csv, contradicting
the claim that every record carries cwnd_bytes and that cwnd.csv has a row
for every second with at least one sample. -/
theorem C5_counterexample :
    (clientMetric 1 10).cwnd_bytes = none
    ∧ rtt_rows (buildMetrics [RawLine.record (clientMetric 1 10)]) = [(1, 10)]
    ∧ cwnd_rows (buildMetrics [RawLine.record (clientMetric 1 10)]) = [] := by
  refine ⟨rfl, ?_, ?_⟩
  · simp [rtt_rows, buildMetrics, processLine, clientMetric, touch, hasKey, appendRtt,
      sortedKeys, rttAt, findEntry, List.insertionSort, List.orderedInsert, round2, round_eq]
    norm_num
  · apply cwnd_rows_eq_nil
    intro t
    rw [cwndAt_buildMetrics]
    simp [cwndSamples, clientMetric]

/-- C5 amended: every record the paced sender buffers carries exactly the
time and rtt_ms fields (the rtt rounded to two decimals) and no
cwnd_bytes field; consequently, for any run whose raw-metrics file
consists of paced-sender records, cwnd.csv is written with no data rows at
all, even for seconds with rtt samples. -/
theorem C5_amended (samples : List (ℤ × ℚ)) :
    (∀ e r, (clientMetric e r).time = e
      ∧ (clientMetric e r).rtt_ms = some (round2 r)
      ∧ (clientMetric e r).cwnd_bytes = none)
    ∧ cwnd_rows (buildMetrics
        (samples.map (fun s => RawLine.record (clientMetric s.1 s.2)))) = [] := by
  refine ⟨fun e r => ⟨rfl, rfl, rfl⟩, ?_⟩
  apply cwnd_rows_eq_nil
  intro t
  rw [cwndAt_buildMetrics]
  rw [cwndSamples, List.filterMap_map]
  rw [List.filterMap_eq_nil_iff]
  intro s _hs
  simp [clientMetric]

lemma pairwise_lePhase_of_const (l : List Event) (c : Nat)
    (h : ∀ e ∈ l, phase e = c) : l.Pairwise lePhase := by
  induction l with
  | nil => exact List.Pairwise.nil
  | cons x l ih =>
      refine List.Pairwise.cons (fun b hb => ?_) (ih (fun e he => h e (List.mem_cons_of_mem x he)))
      rw [lePhase, h x (List.mem_cons_self x l), h b (List.mem_cons_of_mem x hb)]

lemma pairwise_phase_seg (c : Nat) (l1 l2 : List Event)
    (h1 : ∀ e ∈ l1, phase e = c)
    (h2 : ∀ e ∈ l2, c ≤ phase e)
    (p2 : l2.Pairwise lePhase) :
    (l1 ++ l2).Pairwise lePhase ∧ ∀ e ∈ l1 ++ l2, c ≤ phase e := by
  constructor
  · rw [List.pairwise_append]
    refine ⟨pairwise_lePhase_of_const l1 c h1, p2, fun a ha b hb => ?_⟩
    rw [lePhase, h1 a ha]
    exact h2 b hb
  · intro e he
    rcases List.mem_append.mp he with h | h
    · rw [h1 e h]
    · exact h2 e h

lemma forall_mem_map_phase_eq {α : Type} (f : α → Event) (c : Nat)
    (hf : ∀ x, phase (f x) = c) (l : List α) :
    ∀ e ∈ l.map f, phase e = c := by
  intro e he
  rcases List.mem_map.mp he with ⟨x, _, rfl⟩
  exact hf x

/-- The run trace is sorted by the position of each event kind in the body
of run_quic_experiments. -/
theorem runQuicSteps_phase_sorted (si os : List String) (n d : Nat) :
    (runQuicSteps si os n d).Pairwise lePhase := by
  simp only [runQuicSteps, List.append_assoc]
  have h14 : ([Event.removeMetricsFile] : List Event).Pairwise lePhase
      ∧ ∀ e ∈ ([Event.removeMetricsFile] : List Event), 14 ≤ phase e := by
    constructor
    · exact List.pairwise_singleton _ _
    · intro e he
      rw [List.mem_singleton.mp he]
      decide
  have h13 := pairwise_phase_seg 13 ((List.range n).map Event.stopClient)
    [Event.removeMetricsFile]
    (forall_mem_map_phase_eq Event.stopClient 13 (fun x => rfl) (List.range n))
    (fun e he => Nat.le_trans (by omega) (h14.2 e he)) h14.1
  have h12 := pairwise_phase_seg 12
    ((List.range' (n / 2) (n - n / 2)).map Event.stopServer) _
    (forall_mem_map_phase_eq Event.stopServer 12 (fun x => rfl) _)
    (fun e he => Nat.le_trans (by omega) (h13.2 e he)) h13.1
  have h11 := pairwise_phase_seg 11 [Event.saveSwitchStep] _
    (fun e he => by rw [List.mem_singleton.mp he]; rfl)
    (fun e he => Nat.le_trans (by omega) (h12.2 e he)) h12.1
  have h10 := pairwise_phase_seg 10 [Event.aggregateStep] _
    (fun e he => by rw [List.mem_singleton.mp he]; rfl)
    (fun e he => Nat.le_trans (by omega) (h11.2 e he)) h11.1
  have h9 := pairwise_phase_seg 9 (os.map Event.snapshotAfterRx) _
    (forall_mem_map_phase_eq Event.snapshotAfterRx 9 (fun x => rfl) _)
    (fun e he => Nat.le_trans (by omega) (h10.2 e he)) h10.1
  have h8 := pairwise_phase_seg 8 (si.map Event.snapshotAfterTx) _
    (forall_mem_map_phase_eq Event.snapshotAfterTx 8 (fun x => rfl) _)
    (fun e he => Nat.le_trans (by omega) (h9.2 e he)) h9.1
  have h7 := pairwise_phase_seg 7 [Event.measureSleep (d + 4)] _
    (fun e he => by rw [List.mem_singleton.mp he]; rfl)
    (fun e he => Nat.le_trans (by omega) (h8.2 e he)) h8.1
  have h6 := pairwise_phase_seg 6 ((List.range (n / 2)).map Event.startClient) _
    (forall_mem_map_phase_eq Event.startClient 6 (fun x => rfl) _)
    (fun e he => Nat.le_trans (by omega) (h7.2 e he)) h7.1
  have h5 := pairwise_phase_seg 5 [Event.makeOutputDir] _
    (fun e he => by rw [List.mem_singleton.mp he]; rfl)
    (fun e he => Nat.le_trans (by omega) (h6.2 e he)) h6.1
  have h4 := pairwise_phase_seg 4 [Event.settleSleep 2] _
    (fun e he => by rw [List.mem_singleton.mp he]; rfl)
    (fun e he => Nat.le_trans (by omega) (h5.2 e he)) h5.1
  have h3 := pairwise_phase_seg 3
    ((List.range' (n / 2) (n - n / 2)).map Event.startServer) _
    (forall_mem_map_phase_eq Event.startServer 3 (fun x => rfl) _)
    (fun e he => Nat.le_trans (by omega) (h4.2 e he)) h4.1
  have h2 := pairwise_phase_seg 2
    ((List.range' (n / 2) (n - n / 2)).map Event.generateCerts) _
    (forall_mem_map_phase_eq Event.generateCerts 2 (fun x => rfl) _)
    (fun e he => Nat.le_trans (by omega) (h3.2 e he)) h3.1
  have h1 := pairwise_phase_seg 1 (os.map Event.snapshotBeforeRx) _
    (forall_mem_map_phase_eq Event.snapshotBeforeRx 1 (fun x => rfl) _)
    (fun e he => Nat.le_trans (by omega) (h2.2 e he)) h2.1
  have h0 := pairwise_phase_seg 0 (si.map Event.snapshotBeforeTx) _
    (forall_mem_map_phase_eq Event.snapshotBeforeTx 0 (fun x => rfl) _)
    (fun e he => Nat.le_trans (by omega) (h1.2 e he)) h1.1
  exact h0.1

lemma get_lt_of_phase_lt {tr : List Event} (hp : tr.Pairwise lePhase)
    (i j : Fin tr.length) (h : phase (tr.get i) < phase (tr.get j)) :
    (i : Nat) < (j : Nat) := by
  rcases Nat.lt_trichotomy (i : Nat) (j : Nat) with hlt | heq | hgt
  · exact hlt
  · exfalso
    have hij : tr.get i = tr.get j := by
      congr 1
      exact Fin.ext heq
    rw [hij] at h
    exact lt_irrefl _ h
  · exfalso
    have hle := (List.pairwise_iff_get.mp hp) j i hgt
    rw [lePhase] at hle
    omega

lemma phase_le_one_of_isBeforeSnapshot {e : Event}
    (h : isBeforeSnapshot e = true) : phase e ≤ 1 := by
  cases e <;> simp_all [isBeforeSnapshot, phase]

lemma phase_eq_of_isStartServer {e : Event}
    (h : isStartServer e = true) : phase e = 3 := by
  cases e <;> simp_all [isStartServer, phase]

lemma phase_eq_of_isStartClient {e : Event}
    (h : isStartClient e = true) : phase e = 6 := by
  cases e <;> simp_all [isStartClient, phase]

lemma phase_eq_of_isMeasureSleep {e : Event}
    (h : isMeasureSleep e = true) : phase e = 7 := by
  cases e <;> simp_all [isMeasureSleep, phase]

lemma phase_ge_of_isAfterSnapshot {e : Event}
    (h : isAfterSnapshot e = true) : 8 ≤ phase e := by
  cases e <;> simp_all [isAfterSnapshot, phase]

/-- C6 counterexample: in the run over the dumbbell monitored interface
with 4 hosts and duration 5, it is false that every server start precedes
every before-counter snapshot: the trace takes the before snapshot first,
at its very first step, before receivers are started and before the settle
sleep. -/
theorem C6_counterexample :
    ¬ (∀ i j : Fin (runQuicSteps ["s1-eth21"] [] 4 5).length,
        isStartServer ((runQuicSteps ["s1-eth21"] [] 4 5).get i) = true →
        isBeforeSnapshot ((runQuicSteps ["s1-eth21"] [] 4 5).get j) = true →
        (i : Nat) < (j : Nat)) := by
  decide

/-- C6 amended: in every run, the before-counter snapshots are taken at the
very start of the run body, strictly before the receivers are started
(not after them, as claimed) and hence also strictly before any paced
sender starts; the after-counter snapshots are taken only after the sleep
over the duration-plus-4-second drain window. -/
theorem C6_amended (si os : List String) (n d : Nat) :
    ∀ i j : Fin (runQuicSteps si os n d).length,
      (isBeforeSnapshot ((runQuicSteps si os n d).get i) = true →
        isStartServer ((runQuicSteps si os n d).get j) = true → (i : Nat) < (j : Nat))
      ∧ (isBeforeSnapshot ((runQuicSteps si os n d).get i) = true →
        isStartClient ((runQuicSteps si os n d).get j) = true → (i : Nat) < (j : Nat))
      ∧ (isMeasureSleep ((runQuicSteps si os n d).get i) = true →
        isAfterSnapshot ((runQuicSteps si os n d).get j) = true → (i : Nat) < (j : Nat)) := by
  intro i j
  have hp := runQuicSteps_phase_sorted si os n d
  refine ⟨fun hi hj => ?_, fun hi hj => ?_, fun hi hj => ?_⟩
  · refine get_lt_of_phase_lt hp i j ?_
    have ha := phase_le_one_of_isBeforeSnapshot hi
    have hb := phase_eq_of_isStartServer hj
    omega
  · refine get_lt_of_phase_lt hp i j ?_
    have ha := phase_le_one_of_isBeforeSnapshot hi
    have hb := phase_eq_of_isStartClient hj
    omega
  · refine get_lt_of_phase_lt hp i j ?_
    have ha := phase_eq_of_isMeasureSleep hi
    have hb := phase_ge_of_isAfterSnapshot hj
    omega

/-- Witness for C6 amended: in the concrete 4-host run the first
before-snapshot (index 0) precedes the first server start (index 3) and
the measurement sleep (index 8) precedes the after-snapshot (index 9). -/
theorem C6_amended_witness :
    isBeforeSnapshot ((runQuicSteps ["s1-eth21"] [] 4 5).get
        ⟨0, by decide⟩) = true
    ∧ isStartServer ((runQuicSteps ["s1-eth21"] [] 4 5).get
        ⟨3, by decide⟩) = true
    ∧ (0 : Nat) < 3
    ∧ isMeasureSleep ((runQuicSteps ["s1-eth21"] [] 4 5).get
        ⟨9, by decide⟩) = true
    ∧ isAfterSnapshot ((runQuicSteps ["s1-eth21"] [] 4 5).get
        ⟨10, by decide⟩) = true
    ∧ (9 : Nat) < 10 := by
  refine ⟨by decide, by decide,
    ((C6_amended ["s1-eth21"] [] 4 5 ⟨0, by decide⟩ ⟨3, by decide⟩).1
      (by decide) (by decide)),
    by decide, by decide,
    ((C6_amended ["s1-eth21"] [] 4 5 ⟨9, by decide⟩ ⟨10, by decide⟩).2.2
      (by decide) (by decide))⟩

lemma execUntilFailure_eq (steps : List Event) (fails : Event → Bool) :
    execUntilFailure steps fails
      = (steps.takeWhile (fun e => !fails e), steps.any fails) := by
  induction steps with
  | nil => rfl
  | cons e rest ih =>
      rw [execUntilFailure]
      by_cases h : fails e = true
      · rw [if_pos h]
        simp [List.takeWhile_cons, List.any_cons, h]
      · rw [if_neg h, ih]
        have hb : fails e = false := by
          cases hfe : fails e
          · rfl
          · exact absurd hfe h
        simp [List.takeWhile_cons, List.any_cons, hb]

/-- C7 counterexample: when aggregation raises, in the concrete 4-host run,
the caller still stops the network, but the orchestrator performs no
process termination and does not delete the raw-metrics file: those steps
come after the failing one and run_quic_experiments has no cleanup
block. -/
theorem C7_counterexample :
    Event.netStop ∈ mainEvents (runQuicSteps ["s1-eth21"] [] 4 5) isAggregateStep
    ∧ Event.stopServer 2 ∉ mainEvents (runQuicSteps ["s1-eth21"] [] 4 5) isAggregateStep
    ∧ Event.stopClient 0 ∉ mainEvents (runQuicSteps ["s1-eth21"] [] 4 5) isAggregateStep
    ∧ Event.removeMetricsFile ∉ mainEvents (runQuicSteps ["s1-eth21"] [] 4 5) isAggregateStep
    ∧ Event.stopServer 2 ∈ runQuicSteps ["s1-eth21"] [] 4 5
    ∧ Event.stopClient 0 ∈ runQuicSteps ["s1-eth21"] [] 4 5 := by
  refine ⟨?_, ?_, ?_, ?_, ?_, ?_⟩ <;> decide

/-- C7 amended: on any failure of a run step, exactly the events before
the first failing step execute, followed only by the caller's net.stop();
the topology release is guaranteed by the caller's try/except, but the
process terminations and the raw-metrics deletion inside
run_quic_experiments are skipped whenever an earlier step raises. -/
theorem C7_amended (si os : List String) (n d : Nat) (fails : Event → Bool) :
    mainEvents (runQuicSteps si os n d) fails
      = (runQuicSteps si os n d).takeWhile (fun e => !fails e) ++ [Event.netStop]
    ∧ Event.netStop ∈ mainEvents (runQuicSteps si os n d) fails := by
  constructor
  · rw [mainEvents, execUntilFailure_eq]
  · rw [mainEvents]
    exact List.mem_append_right _ (List.mem_singleton.mpr rfl)

/-- C8 counterexample: a KeyboardInterrupt during the first run of the
bandwidth sweep does not abort the sweep: the loop still attempts all four
bandwidth points and writes summary rows for the three later, successful
points, because run_experiment catches KeyboardInterrupt and returns
False. -/
theorem C8_counterexample :
    (run_varying_bandwidth
        (fun bw => if bw = 10 then RunOutcome.keyboardInterrupt else RunOutcome.success)
        (fun _ => true)).1 = [10, 15, 20, 35]
    ∧ (run_varying_bandwidth
        (fun bw => if bw = 10 then RunOutcome.keyboardInterrupt else RunOutcome.success)
        (fun _ => true)).2 = [15, 20, 35] := by
  refine ⟨?_, ?_⟩ <;> rfl

lemma sweep_foldl (p : Nat → Bool) (l : List Nat) (acc1 acc2 : List Nat) :
    l.foldl (fun acc bw => (acc.1 ++ [bw], if p bw then acc.2 ++ [bw] else acc.2))
        (acc1, acc2)
      = (acc1 ++ l, acc2 ++ l.filter p) := by
  induction l generalizing acc1 acc2 with
  | nil => simp
  | cons bw l ih =>
      rw [List.foldl_cons, ih]
      by_cases h : p bw = true
      · simp [h, List.filter_cons]
      · simp [h, List.filter_cons]

/-- C8 amended: a KeyboardInterrupt during a run is caught inside
run_experiment and treated exactly like a failed run: the interrupted
point contributes no summary row, but the sweep loop still attempts every
bandwidth point, and the summary rows are exactly the points whose run
succeeded and whose results were extracted; no run outcome aborts the
sweep. -/
theorem C8_amended (outcome : Nat → RunOutcome) (extractOk : Nat → Bool) :
    run_experiment RunOutcome.keyboardInterrupt = false
    ∧ (run_varying_bandwidth outcome extractOk).1 = BANDWIDTHS
    ∧ (run_varying_bandwidth outcome extractOk).2
        = BANDWIDTHS.filter (fun bw => run_experiment (outcome bw) && extractOk bw) := by
  refine ⟨rfl, ?_, ?_⟩
  · rw [run_varying_bandwidth, sweep_foldl]
    simp
  · rw [run_varying_bandwidth, sweep_foldl]
    simp

end COL724
